import Mathlib

/-!
Verification of the tensorx repository (modules tensorx/layers.py and
tensorx/random.py) through a shallow embedding in Lean 4.

Modelling conventions:

* Python integers are `ℤ` (sizes that index tensors are `ℕ`), Python floats
  are modelled exactly as rationals `ℚ`, and Python `int(x)` is `pyInt`
  (truncation toward zero).
* Fallible code returns `Except String`; raising an exception is `.error`.
* A symbolic TensorFlow tensor handle is a `Tensor` term; the Python value
  `None` held where a tensor may go is `Option.none`.
* The framework primitives that the repository merely calls
  (`uniform_candidate_sampler`, `random_shuffle`, `map_fn`, `random_normal`)
  are modelled executably: pseudo-randomness is resolved by explicit seed
  arguments (`seed`, a per-row seed function `seedF`, a normal-value stream
  `normF`); the distributions themselves are not modelled, but the documented
  structural contracts (sample counts, uniqueness, ranges, permutation) are.
* `layers.py` stores a layer's dense-shape metadata under the attribute name
  `dense_sape` (sic, as in the source), and no layer class ever assigns an
  attribute named `dense_shape`.  The attribute-dictionary model
  `Layer.initAttrs` reproduces the attribute names exactly.  On the
  structural model `Layer`, an attribute read whose name coincides with a
  stored field is a field read; the `layer.dense_shape` reads performed by
  the subclass constructors go through `Layer.getShapeAttr`, which resolves
  only the attribute names the source actually assigns and therefore raises
  `AttributeError` for `dense_shape`.
-/

namespace Tensorx

/-- Python `int(x)` on an exact float value: truncation toward zero. -/
def pyInt (q : ℚ) : ℤ := Int.tdiv q.num q.den

/-- Python list indexing `l[i]` for a nonnegative index; a missing index
raises `IndexError`. -/
def pyIndex {α : Type} (l : List α) (i : ℕ) : Except String α :=
  match l.get? i with
  | some x => .ok x
  | none => .error "IndexError: list index out of range"

/-- Linear congruential step, standing in for the framework random number
generator when a concrete pseudo-random value is needed. -/
def lcg (seed : ℕ) : ℕ := (1103515245 * seed + 12345) % 4294967296

/-- Model of `random_ops.random_shuffle`: a pseudo-random rotation, which is
a permutation of the input list (the distribution is not modelled). -/
def pyShuffle {α : Type} (seed : ℕ) (l : List α) : List α := l.rotate (lcg seed)

/-- Model of `tf.nn.uniform_candidate_sampler` restricted to what
`random.py` uses: with `unique = true` it draws `num_sampled` values without
replacement from `[0, range_max)`, here the first `num_sampled` entries of a
pseudo-random permutation of `List.range range_max`; sampling more unique
values than the range holds is a framework error.  With `unique = false` it
draws with replacement. -/
def uniform_candidate_sampler (num_sampled : ℕ) (unique : Bool) (range_max : ℕ)
    (seed : ℕ) : Except String (List ℕ) :=
  if unique then
    if range_max < num_sampled then
      .error "InvalidArgumentError: unique sampling needs num_sampled at most range_max"
    else
      .ok (((List.range range_max).rotate (lcg seed)).take num_sampled)
  else
    .ok ((List.range num_sampled).map (fun i => lcg (seed + i) % range_max))

/-- Embedding of `random.py` `_sample`: delegates to
`uniform_candidate_sampler` (the first two tensor arguments of the original
call are shape carriers and are dropped). -/
def _sample (range_max num_sampled : ℕ) (unique : Bool) (seed : ℕ) :
    Except String (List ℕ) :=
  uniform_candidate_sampler num_sampled unique range_max seed

/-- Model of `tf.map_fn` over a fallible body: apply `f` to every element in
order, stopping at the first error. -/
def mapExcept {α β : Type} (f : α → Except String β) : List α → Except String (List β)
  | [] => .ok []
  | a :: l => do
    let b ← f a
    let bs ← mapExcept f l
    .ok (b :: bs)

/-- Embedding of the `batch_size is not None` branch of `random.py`
`sample`: `tf.map_fn(fn_sample, tf.range(0, batch_size))` where each
iteration calls `_sample(range_max, num_sampled)` with the defaults
`unique=True, seed=None`; the unresolved per-iteration seeds are supplied by
`seedF`. -/
def sampleBatch (range_max num_sampled batch_size : ℕ) (seedF : ℕ → ℕ) :
    Except String (List (List ℕ)) :=
  mapExcept (fun i => _sample range_max num_sampled true (seedF i)) (List.range batch_size)

/-- Result of `random.py` `sample`: a rank-1 tensor without `batch_size`, a
rank-2 tensor with it. -/
inductive SampleOut : Type
  | vec (xs : List ℕ)
  | mat (rows : List (List ℕ))
deriving DecidableEq

/-- Embedding of `random.py` `sample`: without `batch_size` it is one
`_sample` call; with `batch_size` it maps `_sample` over the batch rows
(ignoring the `unique` and `seed` arguments, as the source does on that
branch). -/
def sample (range_max num_sampled : ℕ) (batch_size : Option ℕ) (unique : Bool)
    (seed : ℕ) (seedF : ℕ → ℕ) : Except String SampleOut :=
  match batch_size with
  | none => (_sample range_max num_sampled unique seed).map .vec
  | some b => (sampleBatch range_max num_sampled b seedF).map .mat

/-- Helper for `enum_row`: rows are numbered from `i` upward. -/
def enum_row_from (i : ℕ) : List (List ℕ) → List (ℕ × ℕ)
  | [] => []
  | r :: rs => r.map (fun c => (i, c)) ++ enum_row_from (i + 1) rs

/-- Modelled from the spec: `enum_row` (from `tensorx.transform`, a module
the repository imports but whose file is not present) turns a batch of
per-row column indices into sparse-tensor index pairs, pairing row `i` with
each sampled column of row `i`, in row order. -/
def enum_row (rows : List (List ℕ)) : List (ℕ × ℕ) := enum_row_from 0 rows

/-- A sparse tensor: the `(indices, values, dense_shape)` triple. -/
structure SparseTensor (α : Type) where
  indices : List (ℕ × ℕ)
  values : List α
  dense_shape : ℕ × ℕ
deriving DecidableEq

/-- Row-major order on sparse entries, used by `sparse_reorder`. -/
def spOrder {α : Type} (a b : (ℕ × ℕ) × α) : Prop :=
  a.1.1 < b.1.1 ∨ (a.1.1 = b.1.1 ∧ a.1.2 ≤ b.1.2)

instance {α : Type} : DecidableRel (@spOrder α) := fun a b => by
  unfold spOrder
  infer_instance

/-- Model of `sparse_ops.sparse_reorder`: sort the `(index, value)` entries
into row-major (canonical) order, keeping indices and values aligned. -/
def sparse_reorder {α : Type} (sp : SparseTensor α) : SparseTensor α :=
  let sorted := (sp.indices.zip sp.values).insertionSort spOrder
  ⟨sorted.map Prod.fst, sorted.map Prod.snd, sp.dense_shape⟩

/-- Number of entries of a sparse tensor lying in row `r` and holding the
value `v`. -/
def SparseTensor.countRV {α : Type} [DecidableEq α] (sp : SparseTensor α)
    (r : ℕ) (v : α) : ℕ :=
  (sp.indices.zip sp.values).countP (fun e => decide (e.1.1 = r ∧ e.2 = v))

/-- Model of `array_ops.fill([n, m], v)`: an `n × m` matrix of copies of
`v`. -/
def fill2 {α : Type} (n m : ℕ) (v : α) : List (List α) :=
  List.replicate n (List.replicate m v)

/-- Model of `array_ops.concat(ts, axis=-1)` for matrices that all have `n`
rows: row `r` of the result concatenates row `r` of every input. -/
def concat_last {α : Type} (ts : List (List (List α))) (n : ℕ) : List (List α) :=
  (List.range n).map (fun r => (ts.map (fun t => t.getD r [])).flatten)

/-- Embedding of `random.py` `sparse_random_normal`.  `normF` supplies the
values of the `random_normal` draw (exact reals are modelled as rationals);
the dtype argument is dropped since the values are carried exactly. -/
def sparse_random_normal (dense_shape : List ℕ) (density : ℚ) (seedF : ℕ → ℕ)
    (normF : ℕ → ℚ) : Except String (SparseTensor ℚ) := do
  let M ← pyIndex dense_shape 1
  let num_noise : ℤ := pyInt (density * (M : ℚ))
  let num_noise : ℕ := (max num_noise 1).toNat
  let N ← pyIndex dense_shape 0
  let flat_indices ← sampleBatch M num_noise N seedF
  let indices := enum_row flat_indices
  let values := (List.range (N * num_noise)).map normF
  let sp_tensor : SparseTensor ℚ := ⟨indices, values, (N, M)⟩
  return sparse_reorder sp_tensor

/-- Embedding of `random.py` `salt_pepper_noise`.  The final cast of the
integer fill values to the requested float dtype is modelled as the identity
(the embedding carries the exact values). -/
def salt_pepper_noise (dense_shape : List ℕ) (density : ℚ)
    (max_value min_value : ℤ) (seedF : ℕ → ℕ) :
    Except String (Option (SparseTensor ℤ)) := do
  let M ← pyIndex dense_shape 1
  let nn0 : ℤ := pyInt (density * (M : ℚ))
  let nn1 : ℤ := if nn0 < 2 then 0 else nn0
  if nn1 = 0 then
    return none
  else do
    let num_salt : ℕ := nn1.toNat / 2
    let num_pepper : ℕ := num_salt
    let num_noise : ℕ := num_salt + num_pepper
    let batch_size ← pyIndex dense_shape 0
    let max_range ← pyIndex dense_shape 1
    let samples ← sampleBatch max_range num_noise batch_size seedF
    let indices := enum_row samples
    let salt_tensor := fill2 batch_size num_salt max_value
    let pepper_tensor := fill2 batch_size num_pepper min_value
    let values := (concat_last [salt_tensor, pepper_tensor] batch_size).flatten
    let sp_tensor : SparseTensor ℤ := ⟨indices, values, (batch_size, max_range)⟩
    return some (sparse_reorder sp_tensor)

/-- Per-value corruption quota of `sparse_random_mask`: value `i` of `k`
fills `total / k` positions, except that the last value also takes the
remainder. -/
def maskCount (total k i : ℕ) : ℕ :=
  if i = k - 1 then total - total / k * (k - 1) else total / k

/-- Embedding of `random.py` `sparse_random_mask`.  A negative corrupted
count (possible only for a negative density) is a framework error at the
`fill`/`sample` calls and is modelled as an error up front; the dtype cast is
the identity as in `salt_pepper_noise`. -/
def sparse_random_mask (dense_shape : List ℕ) (density : ℚ)
    (mask_values : List ℤ) (seed : ℕ) (seedF : ℕ → ℕ) :
    Except String (SparseTensor ℤ) := do
  let num_values := mask_values.length
  let M ← pyIndex dense_shape 1
  let tc : ℤ := pyInt (density * (M : ℚ))
  if tc < 0 then
    throw "ValueError: negative dimensions are not allowed"
  else do
    let total_corrupted : ℕ := tc.toNat
    let shuffled := pyShuffle seed mask_values
    let N ← pyIndex dense_shape 0
    let samples ← sampleBatch M total_corrupted N seedF
    let indices := enum_row samples
    let value_tensors := (List.range num_values).map
      (fun i => fill2 N (maskCount total_corrupted num_values i) (shuffled.getD i 0))
    let values := (concat_last value_tensors N).flatten
    let sp_tensor : SparseTensor ℤ := ⟨indices, values, (N, M)⟩
    return sparse_reorder sp_tensor

/-- TensorFlow dtypes used by the embedded layers. -/
inductive DType : Type
  | float32
  | int32
  | int64
deriving DecidableEq

/-- A shape dimension: an integer, or Python `None` for an unknown batch
size. -/
abbrev Dim := Option ℤ

/-- Symbolic tensor handles for the small graphs that `layers.py` builds. -/
inductive Tensor : Type
  | placeholder (dt : DType) (shape : List Dim) (name : String)
  | shapeOf (t : Tensor)
  | random_normal (shape : Tensor) (mean stddev : ℚ) (seed : Option ℤ) (dt : DType)
  | add (a b : Tensor)
deriving DecidableEq

/-- Python comparison `d < n` between a dimension and an int: comparing
`None` with an int raises `TypeError`. -/
def pyLtDim (d : Dim) (n : ℤ) : Except String Bool :=
  match d with
  | none => .error "TypeError: NoneType and int are not comparable"
  | some v => .ok (decide (v < n))

/-- Structural model of a `layers.py` layer object.  The dense-shape
metadata field keeps the attribute name `dense_sape` under which the source
stores it; `sp_indices`/`sp_values` model the extra attributes of
sparse-representation layers (`hasattr` is `Option.isSome`). -/
structure Layer : Type where
  n_units : ℤ
  name : String
  dtype : DType
  shape : List Dim
  dense_sape : List Dim
  y : Option Tensor
  sp_indices : Option Tensor := none
  sp_values : Option Tensor := none
deriving DecidableEq

/-- Embedding of `Layer.__init__`: defaults the shape, validates an explicit
`dense_shape` argument against `n_units` and `shape[0]`, stores the metadata
and leaves the tensor handle `y` as `None`. -/
def Layer.init (n_units : ℤ) (shape dense_shape : Option (List Dim))
    (dtype : DType) (name : String) : Except String Layer := do
  let shape' : List Dim :=
    match shape with
    | none => [none, some n_units]
    | some s => s
  match dense_shape with
  | none => .ok ⟨n_units, name, dtype, shape', shape', none, none, none⟩
  | some ds => do
    let d1 ← pyIndex ds 1
    let lt ← pyLtDim d1 n_units
    if lt then
      throw "Exception: Shape mismatch: dense_shape lt n_units"
    else do
      let d0 ← pyIndex ds 0
      let s0 ← pyIndex shape' 0
      if d0 ≠ s0 then
        throw "Exception: Shape mismatch: dense_shape differs from shape at 0"
      else
        .ok ⟨n_units, name, dtype, shape', ds, none, none, none⟩

/-- Python attribute values stored on a layer object. -/
inductive PyVal : Type
  | int (n : ℤ)
  | str (s : String)
  | dt (d : DType)
  | shape (s : List Dim)
  | pynone
deriving DecidableEq

/-- An attribute dictionary of a Python object. -/
abbrev Attrs := List (String × PyVal)

/-- Setting an attribute: a later write shadows any earlier one. -/
def setAttr (a : Attrs) (k : String) (v : PyVal) : Attrs := (k, v) :: a

/-- Attribute lookup; `none` models `AttributeError`. -/
def getAttr? (a : Attrs) (k : String) : Option PyVal := a.lookup k

/-- Attribute-level embedding of `Layer.__init__`: the same control flow as
`Layer.init`, but recording each `self.<attr> = ...` assignment under the
exact attribute name used by the source, including the misspelt
`self.dense_sape`. -/
def Layer.initAttrs (n_units : ℤ) (shape dense_shape : Option (List Dim))
    (dtype : DType) (name : String) : Except String Attrs := do
  let a : Attrs := []
  let a := setAttr a "n_units" (.int n_units)
  let a := setAttr a "name" (.str name)
  let a := setAttr a "dtype" (.dt dtype)
  let a :=
    match shape with
    | none => setAttr a "shape" (.shape [none, some n_units])
    | some s => setAttr a "shape" (.shape s)
  let a ←
    match dense_shape with
    | none =>
      match getAttr? a "shape" with
      | some v => pure (setAttr a "dense_sape" v)
      | none => throw "AttributeError: shape"
    | some ds => do
      let d1 ← pyIndex ds 1
      let lt ← pyLtDim d1 n_units
      if lt then
        throw "Exception: Shape mismatch: dense_shape lt n_units"
      else do
        let d0 ← pyIndex ds 0
        let s0 ←
          match getAttr? a "shape" with
          | some (.shape s) => pyIndex s 0
          | _ => throw "AttributeError: shape"
        if d0 ≠ s0 then
          throw "Exception: Shape mismatch: dense_shape differs from shape at 0"
        else
          pure (setAttr a "dense_sape" (.shape ds))
  .ok (setAttr a "y" .pynone)

/-- Model of `ops.convert_to_tensor` applied to a possibly-`None` operand,
as performed by `array_ops.shape` and `math_ops.add`: `None` raises. -/
def requireTensor (t : Option Tensor) : Except String Tensor :=
  match t with
  | some t => .ok t
  | none => .error "ValueError: None values not supported."

/-- Model of `math_ops.add` with a possibly-`None` first operand. -/
def math_add (a : Option Tensor) (b : Tensor) : Except String Tensor := do
  let a ← requireTensor a
  .ok (.add a b)

/-- Model of a Python read of a shape-valued attribute on a layer object,
by the attribute name written in the source.  The shape-valued attributes
that exist on a layer are exactly the ones `Layer.__init__` assigns:
`shape` and `dense_sape` (see `Layer.initAttrs`).  No layer class ever
assigns `dense_shape`, so the reads `layer.dense_shape` performed by
`GaussianNoise.__init__` and `SaltPepperNoise.__init__` while evaluating
the arguments of the base initializer raise `AttributeError`. -/
def Layer.getShapeAttr (l : Layer) (name : String) : Except String (List Dim) :=
  if name = "shape" then .ok l.shape
  else if name = "dense_sape" then .ok l.dense_sape
  else .error ("AttributeError: " ++ name)

/-- Model of the call `getattr(layer, "sp_values", default=None)` in the
sparse branch of `SaltPepperNoise.__init__`: the built-in `getattr` accepts
no keyword arguments in CPython, so passing `default` by keyword raises
`TypeError` regardless of the object. -/
def getattr_kw_default : Except String (Option Tensor) :=
  .error "TypeError: getattr takes no keyword arguments"

/-- Embedding of `GaussianNoise.__init__`.  The third argument of the base
initializer is the attribute read `layer.dense_shape`, which raises
`AttributeError` (the metadata is stored as `dense_sape`), so the rest of
the body is unreachable.  It is nevertheless translated: the scalar
attributes `noise_amount`, `stddev`, `seed` are written but read by no
claim, and on the noisy branch the source adds the noise to `self.y` —
which the base initializer just left as `None` — not to `layer.y`. -/
def GaussianNoise.init (layer : Layer) (noise_amount stddev : ℚ)
    (seed : Option ℤ) : Except String Layer := do
  let ds ← layer.getShapeAttr "dense_shape"
  let base ← Layer.init layer.n_units (some layer.shape) (some ds)
    layer.dtype (layer.name ++ "_noise")
  if noise_amount = 0 then
    return { base with y := layer.y }
  else do
    let ly ← requireTensor layer.y
    let noise := Tensor.random_normal (Tensor.shapeOf ly) 0 stddev seed DType.float32
    let yy ← math_add base.y noise
    return { base with y := some yy }

/-- Embedding of `SaltPepperNoise.__init__`.  As in `GaussianNoise.init`,
the `layer.dense_shape` argument read raises `AttributeError` before the
base initializer runs, so the body below it is unreachable; it is still
translated: `max_value`/`min_value` are unused by the unfinished body,
matching the source; the sparse-indexed branch reads `layer.sp_indices` and
then calls `getattr(layer, "sp_values", default=None)` — itself a
`TypeError`, see `getattr_kw_default` — before leaving `y` as `None`; the
dense branches are `pass`, so `y` would also stay `None` there. -/
def SaltPepperNoise.init (layer : Layer) (noise_amount : ℚ)
    (max_value min_value : ℤ) (seed : Option ℤ) : Except String Layer := do
  let ds ← layer.getShapeAttr "dense_shape"
  let base ← Layer.init layer.n_units (some layer.shape) (some ds)
    layer.dtype (layer.name ++ "_noise")
  if noise_amount = 0 then
    return { base with y := layer.y }
  else do
    let _num_noise : ℤ := pyInt ((layer.n_units : ℚ) * noise_amount)
    let _batch_size ← pyIndex base.shape 0
    if layer.sp_indices.isSome then
      let _indices := layer.sp_indices
      let _values ← getattr_kw_default
      return { base with y := none }
    else
      return base

/-- A concrete dense input-style layer, used as a concrete failing input. -/
def denseLayer : Layer :=
  { n_units := 2, name := "input", dtype := .float32,
    shape := [some 3, some 2], dense_sape := [some 3, some 2],
    y := some (.placeholder .float32 [some 3, some 2] "input") }

/-- A concrete sparse-indexed layer (as `ToSparse` produces), used as a
concrete failing input. -/
def sparseLayer : Layer :=
  { denseLayer with
    name := "input_sparse"
    sp_indices := some (.placeholder .int64 [some 3, some 2] "indices")
    sp_values := some (.placeholder .float32 [some 3, some 2] "values") }

@[simp]
theorem ok_bind {α β : Type} (a : α) (f : α → Except String β) :
    (Except.ok a >>= f) = f a := rfl

@[simp]
theorem error_bind {α β : Type} (e : String) (f : α → Except String β) :
    ((Except.error e : Except String α) >>= f) = .error e := rfl

@[simp]
theorem throw_eq {α : Type} (e : String) : (throw e : Except String α) = .error e := rfl

@[simp]
theorem exmap_ok {α β : Type} (f : α → β) (a : α) :
    Except.map f (.ok a : Except String α) = .ok (f a) := rfl

@[simp]
theorem exmap_error {α β : Type} (f : α → β) (e : String) :
    Except.map f (.error e : Except String α) = .error e := rfl

@[simp]
theorem fmap_ok {α β : Type} (f : α → β) (a : α) :
    (f <$> (.ok a : Except String α)) = .ok (f a) := rfl

@[simp]
theorem fmap_error {α β : Type} (f : α → β) (e : String) :
    (f <$> (.error e : Except String α)) = .error e := rfl

theorem getShapeAttr_dense_shape (l : Layer) :
    l.getShapeAttr "dense_shape" = .error "AttributeError: dense_shape" := by
  simp [Layer.getShapeAttr]

/-- C6: with an explicit integral dense shape, the base initializer raises
exactly when `dense_shape[1] < n_units` or `dense_shape[0] ≠ shape[0]`, and
otherwise succeeds storing the given dense shape unchanged. -/
theorem layer_init_dense_shape_validation (n_units : ℤ) (s0 s1 ds0 : Dim)
    (ds1 : ℤ) (dt : DType) (nm : String) :
    ((∃ e, Layer.init n_units (some [s0, s1]) (some [ds0, some ds1]) dt nm = .error e) ↔
      (ds1 < n_units ∨ ds0 ≠ s0)) ∧
    (¬ (ds1 < n_units ∨ ds0 ≠ s0) →
      Layer.init n_units (some [s0, s1]) (some [ds0, some ds1]) dt nm =
        .ok ⟨n_units, nm, dt, [s0, s1], [ds0, some ds1], none, none, none⟩) := by
  by_cases h1 : ds1 < n_units
  · constructor
    · simp only [Layer.init, pyIndex, pyLtDim]
      simp [h1]
    · intro h
      exact absurd (Or.inl h1) h
  · by_cases h0 : ds0 = s0
    · constructor
      · simp only [Layer.init, pyIndex, pyLtDim]
        simp [h1, h0]
      · intro _
        simp only [Layer.init, pyIndex, pyLtDim]
        simp [h1, h0]
    · constructor
      · simp only [Layer.init, pyIndex, pyLtDim]
        simp [h1, h0]
      · intro h
        exact absurd (Or.inr h0) h

theorem layer_init_dense_shape_validation_w :
    Layer.init 2 (some [some 3, some 2]) (some [some 3, some 5]) .float32 "layer" =
      .ok ⟨2, "layer", .float32, [some 3, some 2], [some 3, some 5], none, none, none⟩ :=
  (layer_init_dense_shape_validation 2 (some 3) (some 2) (some 3) 5 .float32 "layer").2
    (by norm_num)

/-- C1: `Layer.__init__` records the shape metadata under the attribute name
`dense_sape`, not `dense_shape`: on a freshly constructed layer (with or
without an explicit `dense_shape` argument) the attribute `dense_shape` is
absent while `dense_sape` holds the metadata, so every downstream
constructor reading `layer.dense_shape` hits `AttributeError`. -/
theorem layer_attrs_dense_shape_missing :
    ((Layer.initAttrs 2 none none .float32 "layer").map
        (fun a => (getAttr? a "dense_shape", getAttr? a "dense_sape")) =
      .ok (none, some (.shape [none, some 2]))) ∧
    ((Layer.initAttrs 2 (some [some 3, some 2]) (some [some 3, some 2]) .float32 "layer").map
        (fun a => (getAttr? a "dense_shape", getAttr? a "dense_sape")) =
      .ok (none, some (.shape [some 3, some 2]))) := by
  constructor <;> rfl

/-- C2: constructing `SaltPepperNoise` over a layer never yields an object
whose tensor handle `y` is `None`: for every layer (sparse-indexed ones
included) and every noise amount, the constructor raises `AttributeError`
while evaluating the `layer.dense_shape` argument of the base initializer,
since the metadata is stored as `dense_sape`.  The sparse branch that would
set `y = None` is unreachable, and its own
`getattr(layer, "sp_values", default=None)` call would raise `TypeError`
even if the dense-shape read were repaired.  Stated for the concrete
sparse-indexed layer `sparseLayer` with noise amount `0.1` as well. -/
theorem salt_pepper_sparse_input_raises :
    (∀ (layer : Layer) (noise_amount : ℚ) (max_value min_value : ℤ)
      (seed : Option ℤ),
      SaltPepperNoise.init layer noise_amount max_value min_value seed =
        .error "AttributeError: dense_shape") ∧
    SaltPepperNoise.init sparseLayer (1/10) 1 0 none =
      .error "AttributeError: dense_shape" ∧
    getattr_kw_default = .error "TypeError: getattr takes no keyword arguments" := by
  refine ⟨?_, ?_, rfl⟩
  · intro layer noise_amount max_value min_value seed
    simp only [SaltPepperNoise.init, getShapeAttr_dense_shape, error_bind]
  · simp only [SaltPepperNoise.init, getShapeAttr_dense_shape, error_bind]

/-- C5: `GaussianNoise` never produces `layer.y` plus normal noise: for
every layer and every noise amount the constructor raises `AttributeError`
while evaluating the `layer.dense_shape` argument of the base initializer
(layers.py line 225), before the body runs.  Even past that read, the noisy
branch adds the fresh noise to `self.y` — left as `None` by the base
initializer — instead of `layer.y` (line 237), so the claimed tensor would
still not arise.  Stated for the concrete layer `denseLayer` with noise
amount `0.1` as well. -/
theorem gaussian_noise_never_adds_noise :
    (∀ (layer : Layer) (noise_amount stddev : ℚ) (seed : Option ℤ),
      GaussianNoise.init layer noise_amount stddev seed =
        .error "AttributeError: dense_shape") ∧
    GaussianNoise.init denseLayer (1/10) (1/5) none =
      .error "AttributeError: dense_shape" := by
  refine ⟨?_, ?_⟩
  · intro layer noise_amount stddev seed
    simp only [GaussianNoise.init, getShapeAttr_dense_shape, error_bind]
  · simp only [GaussianNoise.init, getShapeAttr_dense_shape, error_bind]

/-- C9: with `noise_amount` exactly `0.0` the identity branch
(`self.y = layer.y`) is never reached: both constructors raise
`AttributeError` while evaluating the `layer.dense_shape` argument of the
base initializer, so no layer handing through the wrapped tensor is ever
produced.  Stated for the concrete layer `denseLayer` as well. -/
theorem noise_zero_still_raises :
    (∀ (layer : Layer) (stddev : ℚ) (seed : Option ℤ),
      GaussianNoise.init layer 0 stddev seed =
        .error "AttributeError: dense_shape") ∧
    (∀ (layer : Layer) (max_value min_value : ℤ) (seed : Option ℤ),
      SaltPepperNoise.init layer 0 max_value min_value seed =
        .error "AttributeError: dense_shape") ∧
    GaussianNoise.init denseLayer 0 (1/5) none =
      .error "AttributeError: dense_shape" ∧
    SaltPepperNoise.init denseLayer 0 1 0 none =
      .error "AttributeError: dense_shape" := by
  refine ⟨?_, ?_, ?_, ?_⟩
  · intro layer stddev seed
    simp only [GaussianNoise.init, getShapeAttr_dense_shape, error_bind]
  · intro layer max_value min_value seed
    simp only [SaltPepperNoise.init, getShapeAttr_dense_shape, error_bind]
  · simp only [GaussianNoise.init, getShapeAttr_dense_shape, error_bind]
  · simp only [SaltPepperNoise.init, getShapeAttr_dense_shape, error_bind]

theorem pyInt_eq_floor (q : ℚ) (h : 0 ≤ q) : pyInt q = ⌊q⌋ := by
  rw [Rat.floor_def]
  unfold pyInt
  rw [Int.tdiv_eq_ediv (by exact_mod_cast Rat.num_nonneg.2 h) (by positivity)]

theorem pyInt_nonneg (q : ℚ) (h : 0 ≤ q) : 0 ≤ pyInt q := by
  rw [pyInt_eq_floor q h]
  exact Int.le_floor.2 (by simpa)

theorem pyInt_le_of_le_one (density : ℚ) (M : ℕ) (hd0 : 0 ≤ density)
    (hd1 : density ≤ 1) : pyInt (density * (M : ℚ)) ≤ (M : ℤ) := by
  rw [pyInt_eq_floor _ (mul_nonneg hd0 (by positivity))]
  calc ⌊density * (M : ℚ)⌋ ≤ ⌊((M : ℕ) : ℚ)⌋ :=
        Int.floor_le_floor (mul_le_of_le_one_left (by positivity) hd1)
    _ = (M : ℤ) := Int.floor_natCast M

theorem take_rotate_nodup (n m s : ℕ) : (((List.range m).rotate s).take n).Nodup :=
  List.Nodup.sublist (List.take_sublist _ _)
    (((List.rotate_perm (List.range m) s).nodup_iff).2 (List.nodup_range m))

theorem take_rotate_lt (n m s : ℕ) : ∀ x ∈ ((List.range m).rotate s).take n, x < m := by
  intro x hx
  have h1 := List.mem_of_mem_take hx
  rw [List.mem_rotate] at h1
  exact List.mem_range.1 h1

theorem take_rotate_length (n m s : ℕ) (h : n ≤ m) :
    (((List.range m).rotate s).take n).length = n := by
  simp only [List.length_take, List.length_rotate, List.length_range]
  omega

theorem sample_ok (range_max num seed : ℕ) (h : num ≤ range_max) :
    _sample range_max num true seed =
      .ok (((List.range range_max).rotate (lcg seed)).take num) := by
  simp [_sample, uniform_candidate_sampler, Nat.not_lt.2 h]

theorem mapExcept_ok {α β : Type} (f : α → Except String β) (g : α → β)
    (l : List α) (h : ∀ a ∈ l, f a = .ok (g a)) :
    mapExcept f l = .ok (l.map g) := by
  induction l with
  | nil => rfl
  | cons a l ih =>
    simp only [mapExcept, List.map_cons, h a (List.mem_cons_self a l), ok_bind,
      ih (fun b hb => h b (List.mem_cons_of_mem a hb))]

theorem sampleBatch_ok (range_max num b : ℕ) (seedF : ℕ → ℕ) (h : num ≤ range_max) :
    sampleBatch range_max num b seedF =
      .ok ((List.range b).map
        (fun i => ((List.range range_max).rotate (lcg (seedF i))).take num)) :=
  mapExcept_ok _ _ _ (fun i _ => sample_ok range_max num (seedF i) h)

theorem sampleBatch_spec (range_max num b : ℕ) (seedF : ℕ → ℕ) (h : num ≤ range_max) :
    ∃ rows, sampleBatch range_max num b seedF = .ok rows ∧ rows.length = b ∧
      ∀ row ∈ rows, row.length = num ∧ row.Nodup ∧ ∀ x ∈ row, x < range_max := by
  refine ⟨_, sampleBatch_ok range_max num b seedF h, by simp, ?_⟩
  intro row hrow
  simp only [List.mem_map] at hrow
  obtain ⟨i, _, rfl⟩ := hrow
  exact ⟨take_rotate_length num range_max (lcg (seedF i)) h,
    take_rotate_nodup num range_max (lcg (seedF i)),
    take_rotate_lt num range_max (lcg (seedF i))⟩

/-- C4: with `unique = True` and `num_sampled ≤ range_max`, `sample` draws
`num_sampled` pairwise-distinct indices from `[0, range_max)`; with a batch
size `b` it draws `b` such rows. -/
theorem sample_unique_distinct_in_range (range_max num_sampled : ℕ)
    (h : num_sampled ≤ range_max) (seed : ℕ) (seedF : ℕ → ℕ) (b : ℕ) :
    (∃ xs, sample range_max num_sampled none true seed seedF = .ok (.vec xs) ∧
      xs.length = num_sampled ∧ xs.Nodup ∧ ∀ x ∈ xs, x < range_max) ∧
    (∃ rows, sample range_max num_sampled (some b) true seed seedF = .ok (.mat rows) ∧
      rows.length = b ∧
      ∀ row ∈ rows, row.length = num_sampled ∧ row.Nodup ∧ ∀ x ∈ row, x < range_max) := by
  constructor
  · refine ⟨((List.range range_max).rotate (lcg seed)).take num_sampled, ?_,
      take_rotate_length num_sampled range_max (lcg seed) h,
      take_rotate_nodup num_sampled range_max (lcg seed),
      take_rotate_lt num_sampled range_max (lcg seed)⟩
    simp [sample, sample_ok range_max num_sampled seed h]
  · obtain ⟨rows, hrows, hlen, hprops⟩ := sampleBatch_spec range_max num_sampled b seedF h
    refine ⟨rows, ?_, hlen, hprops⟩
    simp [sample, hrows]

theorem sample_unique_distinct_in_range_w :
    (∃ xs, sample 5 3 none true 0 (fun i => i) = .ok (.vec xs) ∧
      xs.length = 3 ∧ xs.Nodup ∧ ∀ x ∈ xs, x < 5) ∧
    (∃ rows, sample 5 3 (some 2) true 0 (fun i => i) = .ok (.mat rows) ∧
      rows.length = 2 ∧ ∀ row ∈ rows, row.length = 3 ∧ row.Nodup ∧ ∀ x ∈ row, x < 5) :=
  sample_unique_distinct_in_range 5 3 (by norm_num) 0 (fun i => i) 2

/-- C8: `salt_pepper_noise` on a shape `[N, M]` returns `None` exactly when
`int(density * M)` is below two; otherwise it either returns a sparse
tensor or raises, but never returns `None`. -/
theorem salt_pepper_none_iff_lt_two (N M : ℕ) (density : ℚ)
    (max_value min_value : ℤ) (seedF : ℕ → ℕ) :
    salt_pepper_noise [N, M] density max_value min_value seedF = .ok none ↔
      pyInt (density * (M : ℚ)) < 2 := by
  by_cases h : pyInt (density * (M : ℚ)) < 2
  · simp [salt_pepper_noise, pyIndex, h, pure, Except.pure]
  · simp only [salt_pepper_noise, pyIndex, List.get?]
    simp only [ok_bind]
    rw [if_neg h]
    rw [if_neg (by omega)]
    cases hsb : sampleBatch M ((pyInt (density * (M : ℚ))).toNat / 2 +
        (pyInt (density * (M : ℚ))).toNat / 2) N seedF with
    | ok rows => simp [hsb, h, pure, Except.pure]
    | error e => simp [hsb, h]

theorem zip_fst_snd {α β : Type} (l : List (α × β)) :
    (l.map Prod.fst).zip (l.map Prod.snd) = l := by
  induction l with
  | nil => rfl
  | cons a l ih => simp [ih]

theorem countRV_reorder {α : Type} [DecidableEq α] (sp : SparseTensor α)
    (r : ℕ) (v : α) : (sparse_reorder sp).countRV r v = sp.countRV r v := by
  unfold sparse_reorder SparseTensor.countRV
  simp only [zip_fst_snd]
  exact List.Perm.countP_eq _ (List.perm_insertionSort spOrder (sp.indices.zip sp.values))

theorem values_reorder_mem {α : Type} (sp : SparseTensor α) (v : α)
    (hv : v ∈ (sparse_reorder sp).values) : v ∈ sp.values := by
  unfold sparse_reorder at hv
  simp only [List.mem_map] at hv
  obtain ⟨e, he, rfl⟩ := hv
  have h2 : e ∈ sp.indices.zip sp.values :=
    (List.perm_insertionSort spOrder (sp.indices.zip sp.values)).mem_iff.1 he
  exact (List.of_mem_zip h2).2

theorem reorder_lengths {α : Type} (sp : SparseTensor α) :
    (sparse_reorder sp).indices.length = (sp.indices.zip sp.values).length ∧
    (sparse_reorder sp).values.length = (sp.indices.zip sp.values).length := by
  unfold sparse_reorder
  constructor <;>
    simp [(List.perm_insertionSort spOrder (sp.indices.zip sp.values)).length_eq]

theorem enum_row_from_length (i : ℕ) (rows : List (List ℕ)) :
    (enum_row_from i rows).length = (rows.map List.length).sum := by
  induction rows generalizing i with
  | nil => rfl
  | cons r rs ih => simp [enum_row_from, ih]

theorem map_length_sum_const (rows : List (List ℕ)) (nn : ℕ)
    (h : ∀ r ∈ rows, r.length = nn) :
    (rows.map List.length).sum = rows.length * nn := by
  induction rows with
  | nil => simp
  | cons r rs ih =>
    simp only [List.map_cons, List.sum_cons, List.length_cons]
    rw [h r (List.mem_cons_self r rs), ih (fun x hx => h x (List.mem_cons_of_mem r hx))]
    ring

theorem countP_replicate {α : Type} (p : α → Bool) (n : ℕ) (a : α) :
    (List.replicate n a).countP p = if p a then n else 0 := by
  induction n with
  | zero => simp
  | succ n ih =>
    rw [List.replicate_succ, List.countP_cons, ih]
    split_ifs <;> simp_all

theorem getD_replicate {α : Type} (n r : ℕ) (a d : α) (h : r < n) :
    (List.replicate n a).getD r d = a := by
  induction n generalizing r with
  | zero => omega
  | succ n ih =>
    cases r with
    | zero => rfl
    | succ r => simpa [List.replicate_succ, List.getD_cons_succ] using ih r (by omega)

theorem concat_last_fill {α : Type} (parts : List (List α)) (n : ℕ) :
    concat_last (parts.map (fun p => List.replicate n p)) n =
      List.replicate n parts.flatten := by
  unfold concat_last
  refine List.eq_replicate_iff.2 ⟨by simp, ?_⟩
  intro b hb
  simp only [List.mem_map, List.mem_range] at hb
  obtain ⟨r, hr, rfl⟩ := hb
  rw [List.map_map]
  congr 1
  have : ∀ p ∈ parts, ((fun t => t.getD r []) ∘ fun p => List.replicate n p) p = id p :=
    fun p _ => getD_replicate n r p [] hr
  rw [List.map_congr_left this, List.map_id]

theorem countP_zip_tag {α : Type} [DecidableEq α] (i r : ℕ) (row : List ℕ)
    (vals : List α) (v : α) (h : row.length = vals.length) :
    ((row.map (fun c => (i, c))).zip vals).countP
        (fun e => decide (e.1.1 = r ∧ e.2 = v)) =
      if i = r then vals.countP (fun x => decide (x = v)) else 0 := by
  induction row generalizing vals with
  | nil =>
    have hv : vals = [] := List.length_eq_zero.1 (by simpa using h.symm)
    subst hv
    simp
  | cons c cs ih =>
    cases vals with
    | nil => simp at h
    | cons w ws =>
      simp only [List.map_cons, List.zip_cons_cons, List.countP_cons]
      rw [ih ws (by simpa using h)]
      by_cases hir : i = r
      · subst hir
        simp only [if_pos rfl, List.countP_cons]
        by_cases hw : w = v <;> simp [hw]
      · simp [hir]

theorem countP_zip_enum_row {α : Type} [DecidableEq α] (rows : List (List ℕ))
    (rowVals : List α) (v : α)
    (hlen : ∀ row ∈ rows, row.length = rowVals.length) :
    ∀ i r, ((enum_row_from i rows).zip
        (List.replicate rows.length rowVals).flatten).countP
        (fun e => decide (e.1.1 = r ∧ e.2 = v)) =
      if i ≤ r ∧ r < i + rows.length then
        rowVals.countP (fun x => decide (x = v))
      else 0 := by
  induction rows with
  | nil =>
    intro i r
    simp only [enum_row_from, List.length_nil, List.replicate_zero, List.flatten_nil,
      List.zip_nil_left, List.countP_nil]
    have : ¬ (i ≤ r ∧ r < i + 0) := by omega
    rw [if_neg this]
  | cons row rs ih =>
    intro i r
    have hrow : row.length = rowVals.length := hlen row (List.mem_cons_self _ _)
    have hzip : (row.map (fun c => (i, c))).length = rowVals.length := by simp [hrow]
    simp only [enum_row_from, List.length_cons, List.replicate_succ, List.flatten_cons]
    rw [List.zip_append hzip, List.countP_append, countP_zip_tag i r row rowVals v hrow,
      ih (fun x hx => hlen x (List.mem_cons_of_mem _ hx)) (i + 1) r]
    split_ifs <;> omega

theorem sparse_random_normal_spec (N M : ℕ) (density : ℚ) (seedF : ℕ → ℕ)
    (normF : ℕ → ℚ) (h : (max (pyInt (density * (M : ℚ))) 1).toNat ≤ M) :
    ∃ sp, sparse_random_normal [N, M] density seedF normF = .ok sp ∧
      sp.indices.length = N * (max (pyInt (density * (M : ℚ))) 1).toNat ∧
      sp.values.length = N * (max (pyInt (density * (M : ℚ))) 1).toNat := by
  obtain ⟨rows, hrows, hblen, hprops⟩ :=
    sampleBatch_spec M ((max (pyInt (density * (M : ℚ))) 1).toNat) N seedF h
  refine ⟨sparse_reorder ⟨enum_row rows,
    (List.range (N * (max (pyInt (density * (M : ℚ))) 1).toNat)).map normF, (N, M)⟩,
    ?_, ?_, ?_⟩
  · simp [sparse_random_normal, pyIndex, hrows, pure, Except.pure]
  · rw [(reorder_lengths _).1]
    rw [List.length_zip]
    rw [enum_row, enum_row_from_length,
      map_length_sum_const rows _ (fun x hx => (hprops x hx).1), hblen]
    simp
  · rw [(reorder_lengths _).2]
    rw [List.length_zip]
    rw [enum_row, enum_row_from_length,
      map_length_sum_const rows _ (fun x hx => (hprops x hx).1), hblen]
    simp

/-- C10 (amended): the per-row sample count is clamped to at least one, and
whenever that clamped count `max(int(density * M), 1)` fits in the row width
`M`, the returned sparse tensor holds exactly `N * max(int(density * M), 1)`
values, which is at least `N`; it is nonempty whenever `N ≥ 1` (for `N = 0`
the tensor is empty). -/
theorem sparse_random_normal_clamped_count (N M : ℕ) (density : ℚ)
    (seedF : ℕ → ℕ) (normF : ℕ → ℚ)
    (h : (max (pyInt (density * (M : ℚ))) 1).toNat ≤ M) :
    1 ≤ (max (pyInt (density * (M : ℚ))) 1).toNat ∧
    ∃ sp, sparse_random_normal [N, M] density seedF normF = .ok sp ∧
      sp.values.length = N * (max (pyInt (density * (M : ℚ))) 1).toNat ∧
      sp.indices.length = N * (max (pyInt (density * (M : ℚ))) 1).toNat ∧
      N ≤ sp.values.length ∧ (1 ≤ N → sp.values ≠ []) := by
  have h1 : 1 ≤ (max (pyInt (density * (M : ℚ))) 1).toNat := by
    have h2 : (1 : ℤ) ≤ max (pyInt (density * (M : ℚ))) 1 := le_max_right _ _
    omega
  obtain ⟨sp, hsp, hidx, hval⟩ := sparse_random_normal_spec N M density seedF normF h
  refine ⟨h1, sp, hsp, hval, hidx, ?_, ?_⟩
  · rw [hval]
    simpa using Nat.mul_le_mul_left N h1
  · intro hN hemp
    rw [hemp] at hval
    simp only [List.length_nil] at hval
    have := Nat.mul_pos hN h1
    omega

theorem sparse_random_normal_clamped_count_w :
    1 ≤ (max (pyInt (((1 : ℚ)/2) * ((3 : ℕ) : ℚ))) 1).toNat ∧
    ∃ sp, sparse_random_normal [2, 3] ((1 : ℚ)/2) (fun i => i) (fun _ => 0) = .ok sp ∧
      sp.values.length = 2 * (max (pyInt (((1 : ℚ)/2) * ((3 : ℕ) : ℚ))) 1).toNat ∧
      sp.indices.length = 2 * (max (pyInt (((1 : ℚ)/2) * ((3 : ℕ) : ℚ))) 1).toNat ∧
      2 ≤ sp.values.length ∧ (1 ≤ 2 → sp.values ≠ []) :=
  sparse_random_normal_clamped_count 2 3 ((1 : ℚ)/2) (fun i => i) (fun _ => 0)
    (by
      have e : pyInt (((1 : ℚ)/2) * ((3 : ℕ) : ℚ)) = 1 := by
        rw [pyInt_eq_floor _ (by norm_num)]
        exact Int.floor_eq_iff.2 (by norm_num)
      rw [e]
      decide)

/-- C10 counterexample: with batch dimension `N = 0` the call succeeds and
returns a sparse tensor with an empty value list, so the result is not
"never empty" as claimed. -/
theorem sparse_random_normal_empty_batch :
    ∃ sp, sparse_random_normal [0, 3] ((1 : ℚ)/2) (fun i => i) (fun _ => 0) = .ok sp ∧
      sp.values = [] := by
  have e : pyInt (((1 : ℚ)/2) * ((3 : ℕ) : ℚ)) = 1 := by
    rw [pyInt_eq_floor _ (by norm_num)]
    exact Int.floor_eq_iff.2 (by norm_num)
  obtain ⟨sp, hsp, _, hval⟩ :=
    sparse_random_normal_spec 0 3 ((1 : ℚ)/2) (fun i => i) (fun _ => 0) (by rw [e]; decide)
  refine ⟨sp, hsp, List.length_eq_zero.1 (by rw [hval]; ring)⟩

/-- C3: for a shape `[N, M]` and a corruption proportion whose
`int(density * M)` is at least two, `salt_pepper_noise` builds a symmetric
noise tensor: every row `r < N` holds exactly `int(density * M) // 2`
entries equal to `max_value` (salt) and exactly as many equal to
`min_value` (pepper), and every stored value is one of those two
constants. -/
theorem salt_pepper_noise_symmetric (N M : ℕ) (density : ℚ)
    (max_value min_value : ℤ) (seedF : ℕ → ℕ) (hd0 : 0 ≤ density)
    (hd1 : density ≤ 1) (h2 : 2 ≤ pyInt (density * (M : ℚ)))
    (hne : max_value ≠ min_value) :
    ∃ sp, salt_pepper_noise [N, M] density max_value min_value seedF =
        .ok (some sp) ∧
      (∀ r < N, sp.countRV r max_value = (pyInt (density * (M : ℚ))).toNat / 2 ∧
        sp.countRV r min_value = (pyInt (density * (M : ℚ))).toNat / 2) ∧
      ∀ v ∈ sp.values, v = max_value ∨ v = min_value := by
  have htM : pyInt (density * (M : ℚ)) ≤ (M : ℤ) := pyInt_le_of_le_one density M hd0 hd1
  set t := pyInt (density * (M : ℚ)) with ht
  set ns := t.toNat / 2 with hns
  have hnsM : ns + ns ≤ M := by omega
  obtain ⟨rows, hrows, hblen, hprops⟩ := sampleBatch_spec M (ns + ns) N seedF hnsM
  have hmne : min_value ≠ max_value := hne.symm
  have hcnt_mx : ([List.replicate ns max_value, List.replicate ns min_value]).flatten.countP
      (fun x => decide (x = max_value)) = ns := by
    simp [List.countP_append, countP_replicate, hmne]
  have hcnt_mn : ([List.replicate ns max_value, List.replicate ns min_value]).flatten.countP
      (fun x => decide (x = min_value)) = ns := by
    simp [List.countP_append, countP_replicate, hne]
  have hvlen : ([List.replicate ns max_value, List.replicate ns min_value]).flatten.length
      = ns + ns := by simp
  refine ⟨sparse_reorder ⟨enum_row rows,
    (List.replicate N ([List.replicate ns max_value,
      List.replicate ns min_value]).flatten).flatten, (N, M)⟩, ?_, ?_, ?_⟩
  · simp only [salt_pepper_noise, pyIndex, List.get?]
    simp only [ok_bind]
    rw [if_neg (not_lt.2 h2), if_neg (show ¬ t = 0 by omega)]
    rw [hrows]
    simp only [ok_bind]
    rw [show [fill2 N ns max_value, fill2 N ns min_value] =
      [List.replicate ns max_value, List.replicate ns min_value].map
        (fun p => List.replicate N p) from rfl]
    rw [concat_last_fill]
    simp [pure, Except.pure]
  · intro r hr
    have hlenrows : ∀ row ∈ rows, row.length =
        ([List.replicate ns max_value, List.replicate ns min_value]).flatten.length :=
      fun row hrow => by rw [hvlen]; exact (hprops row hrow).1
    constructor
    · rw [countRV_reorder]
      unfold SparseTensor.countRV enum_row
      rw [← hblen, countP_zip_enum_row rows _ max_value hlenrows 0 r,
        if_pos (by omega), hcnt_mx]
    · rw [countRV_reorder]
      unfold SparseTensor.countRV enum_row
      rw [← hblen, countP_zip_enum_row rows _ min_value hlenrows 0 r,
        if_pos (by omega), hcnt_mn]
  · intro v hv
    have hv1 := values_reorder_mem _ v hv
    simp only [List.mem_flatten] at hv1
    obtain ⟨l, hl, hvl⟩ := hv1
    have hl2 := List.eq_of_mem_replicate hl
    subst hl2
    simp only [List.flatten_cons, List.flatten_nil, List.append_nil,
      List.mem_append, List.mem_replicate] at hvl
    rcases hvl with ⟨_, rfl⟩ | ⟨_, rfl⟩
    · exact Or.inl rfl
    · exact Or.inr rfl

theorem salt_pepper_noise_symmetric_w :
    ∃ sp, salt_pepper_noise [2, 4] ((1 : ℚ)/2) 1 (-1) (fun i => i) = .ok (some sp) ∧
      (∀ r < 2, sp.countRV r 1 = (pyInt (((1 : ℚ)/2) * ((4 : ℕ) : ℚ))).toNat / 2 ∧
        sp.countRV r (-1) = (pyInt (((1 : ℚ)/2) * ((4 : ℕ) : ℚ))).toNat / 2) ∧
      ∀ v ∈ sp.values, v = 1 ∨ v = -1 :=
  salt_pepper_noise_symmetric 2 4 ((1 : ℚ)/2) 1 (-1) (fun i => i) (by norm_num)
    (by norm_num)
    (by
      rw [pyInt_eq_floor _ (by norm_num)]
      exact Int.le_floor.2 (by norm_num))
    (by decide)

theorem maskCount_sum (total k : ℕ) (hk : 1 ≤ k) :
    ((List.range k).map (maskCount total k)).sum = total := by
  obtain ⟨m, rfl⟩ : ∃ m, k = m + 1 := ⟨k - 1, by omega⟩
  rw [List.range_succ, List.map_append, List.sum_append]
  have h1 : (List.range m).map (maskCount total (m + 1)) =
      List.replicate m (total / (m + 1)) := by
    refine List.eq_replicate_iff.2 ⟨by simp, ?_⟩
    intro b hb
    simp only [List.mem_map, List.mem_range] at hb
    obtain ⟨i, hi, rfl⟩ := hb
    unfold maskCount
    rw [if_neg (by omega)]
  rw [h1, List.sum_replicate, smul_eq_mul]
  simp only [List.map_cons, List.map_nil, List.sum_cons, List.sum_nil]
  unfold maskCount
  rw [if_pos (by omega)]
  have h3 : total / (m + 1) * m + total / (m + 1) ≤ total := by
    rw [← Nat.mul_succ]
    exact Nat.div_mul_le_self total (m + 1)
  have hms : m + 1 - 1 = m := by omega
  rw [hms, Nat.mul_comm m (total / (m + 1))]
  generalize total / (m + 1) = d at h3 ⊢
  generalize d * m = e at h3 ⊢
  omega

theorem sum_range_delta (k j : ℕ) (c : ℕ → ℕ) (hj : j < k) :
    ((List.range k).map (fun i => if i = j then c i else 0)).sum = c j := by
  induction k with
  | zero => omega
  | succ k ih =>
    rw [List.range_succ, List.map_append, List.sum_append]
    by_cases hjk : j = k
    · subst hjk
      have h1 : (List.range j).map (fun i => if i = j then c i else 0) =
          List.replicate j 0 := by
        refine List.eq_replicate_iff.2 ⟨by simp, ?_⟩
        intro b hb
        simp only [List.mem_map, List.mem_range] at hb
        obtain ⟨i, hi, rfl⟩ := hb
        rw [if_neg (by omega)]
      rw [h1, List.sum_replicate]
      simp
    · rw [ih (by omega)]
      simp only [List.map_cons, List.map_nil, List.sum_cons, List.sum_nil,
        if_neg (show ¬ k = j from fun h => hjk h.symm)]
      omega

theorem countP_flatten_replicate {α : Type} [DecidableEq α] (vs : List α)
    (c : ℕ → ℕ) (hnd : vs.Nodup) (j : ℕ) (hj : j < vs.length) (d : α) :
    (((List.range vs.length).map
        (fun i => List.replicate (c i) (vs.getD i d))).flatten).countP
      (fun x => decide (x = vs.getD j d)) = c j := by
  rw [List.countP_flatten, List.map_map]
  have hcong : ∀ i ∈ List.range vs.length,
      (List.countP (fun x => decide (x = vs.getD j d)) ∘
        fun i => List.replicate (c i) (vs.getD i d)) i = if i = j then c i else 0 := by
    intro i hi
    have hi' := List.mem_range.1 hi
    simp only [Function.comp_apply]
    rw [countP_replicate]
    by_cases hij : i = j
    · subst hij
      simp
    · have hne : vs.getD i d ≠ vs.getD j d := by
        rw [List.getD_eq_get vs d hi', List.getD_eq_get vs d hj]
        intro hEq
        have := (hnd.get_inj_iff).1 hEq
        exact hij (by simpa using congrArg Fin.val this)
      rw [decide_eq_false hne]
      simp [hij]
  rw [List.map_congr_left hcong]
  exact sum_range_delta vs.length j c hj

/-- C7: for a shape `[N, M]`, a proportion `density` and a non-empty list of
`k` distinct mask values, `sparse_random_mask` allocates the
`total = int(density * M)` corrupted positions of each row among the
(shuffled) mask values by the quota `maskCount`: each of the first `k - 1`
values fills `total / k` positions, the last fills the remainder
`total - total / k * (k - 1)`, the quotas sum to `total`, and each row of
the returned tensor realises exactly these per-value counts. -/
theorem sparse_random_mask_allocation (N M : ℕ) (density : ℚ)
    (mask_values : List ℤ) (seed : ℕ) (seedF : ℕ → ℕ)
    (hd0 : 0 ≤ density) (hd1 : density ≤ 1)
    (hk : mask_values ≠ []) (hnd : mask_values.Nodup) :
    (∀ i < mask_values.length - 1,
      maskCount (pyInt (density * (M : ℚ))).toNat mask_values.length i =
        (pyInt (density * (M : ℚ))).toNat / mask_values.length) ∧
    maskCount (pyInt (density * (M : ℚ))).toNat mask_values.length
        (mask_values.length - 1) =
      (pyInt (density * (M : ℚ))).toNat -
        (pyInt (density * (M : ℚ))).toNat / mask_values.length *
          (mask_values.length - 1) ∧
    ((List.range mask_values.length).map
        (maskCount (pyInt (density * (M : ℚ))).toNat mask_values.length)).sum =
      (pyInt (density * (M : ℚ))).toNat ∧
    ∃ sp, sparse_random_mask [N, M] density mask_values seed seedF = .ok sp ∧
      ∀ r < N, ∀ j < mask_values.length,
        sp.countRV r ((pyShuffle seed mask_values).getD j 0) =
          maskCount (pyInt (density * (M : ℚ))).toNat mask_values.length j := by
  have ht0 : 0 ≤ pyInt (density * (M : ℚ)) :=
    pyInt_nonneg _ (mul_nonneg hd0 (by positivity))
  have htM : pyInt (density * (M : ℚ)) ≤ (M : ℤ) := pyInt_le_of_le_one density M hd0 hd1
  set t := pyInt (density * (M : ℚ)) with ht
  set k := mask_values.length with hkdef
  have hk1 : 1 ≤ k := List.length_pos.2 hk
  refine ⟨fun i hi => by unfold maskCount; rw [if_neg (by omega)],
    by unfold maskCount; rw [if_pos rfl], maskCount_sum t.toNat k hk1, ?_⟩
  have hshl : (pyShuffle seed mask_values).length = k := by
    simp [pyShuffle, hkdef]
  have hshnd : (pyShuffle seed mask_values).Nodup :=
    ((List.rotate_perm mask_values (lcg seed)).nodup_iff).2 hnd
  have htotM : t.toNat ≤ M := by omega
  obtain ⟨rows, hrows, hblen, hprops⟩ := sampleBatch_spec M t.toNat N seedF htotM
  have hrvlen : (((List.range k).map (fun i =>
      List.replicate (maskCount t.toNat k i) ((pyShuffle seed mask_values).getD i 0))).flatten).length
      = t.toNat := by
    rw [List.length_flatten, List.map_map]
    have : ((List.range k).map (List.length ∘ fun i =>
        List.replicate (maskCount t.toNat k i) ((pyShuffle seed mask_values).getD i 0)))
        = (List.range k).map (maskCount t.toNat k) := by
      apply List.map_congr_left
      intro i _
      simp
    rw [this, maskCount_sum t.toNat k hk1]
  refine ⟨sparse_reorder ⟨enum_row rows,
    (List.replicate N (((List.range k).map (fun i =>
      List.replicate (maskCount t.toNat k i)
        ((pyShuffle seed mask_values).getD i 0))).flatten)).flatten, (N, M)⟩, ?_, ?_⟩
  · simp only [sparse_random_mask, pyIndex, List.get?]
    simp only [ok_bind]
    rw [if_neg (by omega)]
    rw [hrows]
    simp only [ok_bind]
    rw [show (List.range k).map (fun i => fill2 N (maskCount t.toNat k i)
        ((pyShuffle seed mask_values).getD i 0)) =
      ((List.range k).map (fun i => List.replicate (maskCount t.toNat k i)
        ((pyShuffle seed mask_values).getD i 0))).map
          (fun p => List.replicate N p) from by rw [List.map_map]; rfl]
    rw [concat_last_fill]
    simp [pure, Except.pure]
  · intro r hr j hj
    have hlenrows : ∀ row ∈ rows, row.length =
        (((List.range k).map (fun i => List.replicate (maskCount t.toNat k i)
          ((pyShuffle seed mask_values).getD i 0))).flatten).length :=
      fun row hrow => by rw [hrvlen]; exact (hprops row hrow).1
    rw [countRV_reorder]
    unfold SparseTensor.countRV enum_row
    rw [← hblen, countP_zip_enum_row rows _ _ hlenrows 0 r, if_pos (by omega)]
    have := countP_flatten_replicate (pyShuffle seed mask_values)
      (maskCount t.toNat k) hshnd j (by omega) 0
    rw [hshl] at this
    exact this

theorem sparse_random_mask_allocation_w :
    (∀ i < ([5, 7] : List ℤ).length - 1,
      maskCount (pyInt (((1 : ℚ)/2) * ((4 : ℕ) : ℚ))).toNat ([5, 7] : List ℤ).length i =
        (pyInt (((1 : ℚ)/2) * ((4 : ℕ) : ℚ))).toNat / ([5, 7] : List ℤ).length) ∧
    maskCount (pyInt (((1 : ℚ)/2) * ((4 : ℕ) : ℚ))).toNat ([5, 7] : List ℤ).length
        (([5, 7] : List ℤ).length - 1) =
      (pyInt (((1 : ℚ)/2) * ((4 : ℕ) : ℚ))).toNat -
        (pyInt (((1 : ℚ)/2) * ((4 : ℕ) : ℚ))).toNat / ([5, 7] : List ℤ).length *
          (([5, 7] : List ℤ).length - 1) ∧
    ((List.range ([5, 7] : List ℤ).length).map
        (maskCount (pyInt (((1 : ℚ)/2) * ((4 : ℕ) : ℚ))).toNat
          ([5, 7] : List ℤ).length)).sum =
      (pyInt (((1 : ℚ)/2) * ((4 : ℕ) : ℚ))).toNat ∧
    ∃ sp, sparse_random_mask [3, 4] ((1 : ℚ)/2) [5, 7] 0 (fun i => i) = .ok sp ∧
      ∀ r < 3, ∀ j < ([5, 7] : List ℤ).length,
        sp.countRV r ((pyShuffle 0 [5, 7]).getD j 0) =
          maskCount (pyInt (((1 : ℚ)/2) * ((4 : ℕ) : ℚ))).toNat
            ([5, 7] : List ℤ).length j :=
  sparse_random_mask_allocation 3 4 ((1 : ℚ)/2) [5, 7] 0 (fun i => i)
    (by norm_num) (by norm_num) (by decide) (by decide)

end Tensorx
